import Mathlib

/-!
Verification of the request-signing and credential-caching core of the
neocrates repository, as a shallow embedding in Lean 4.

The embedding follows the Rust sources:
  * `awssts/src/aliyun.rs` (Variant A query signing, STS AssumeRole client),
  * `sms/src/aliyun.rs` (Variant A query signing, SMS SendSms client),
  * `awssts/src/tencent.rs` (Variant B header signing, STS client),
  * `src/sms/tencent.rs` (Variant B header signing, SMS client),
  * `src/aws/sts_service.rs` (credential cache around the aliyun STS client).

Clock readings, generated nonces, SHA-256 digests, serde parse outcomes and
network transport outcomes are external effects of library crates; they enter
the embedded functions as explicit parameters, so that every function here is
pure and executable.
-/

namespace Neocrates

/-! ## Bytes, hex rendering, percent encoding -/

/-- The byte pattern matched by `url_encode` in `awssts/src/aliyun.rs` and
`awssts/src/tencent.rs`: `A-Z`, `a-z`, `0-9`, `-`, `_`, `.`, `~`. -/
def isUnreservedByte (b : Nat) : Bool :=
  (0x41 ≤ b && b ≤ 0x5A) || (0x61 ≤ b && b ≤ 0x7A) || (0x30 ≤ b && b ≤ 0x39) ||
  b == 0x2D || b == 0x5F || b == 0x2E || b == 0x7E

/-- Uppercase hexadecimal digit for a value below 16. -/
def hexDigitUpper (n : Nat) : Char :=
  if n < 10 then Char.ofNat (0x30 + n) else Char.ofNat (0x41 + (n - 10))

/-- The Rust byte formatting `%02X` preceded by a percent sign: a `%` and two
uppercase hexadecimal digits.  Inputs are bytes (below 256), for which the
width-2 zero-padded rendering is exactly two digits. -/
def percentHexByte (b : Nat) : List Char :=
  ['%', hexDigitUpper (b / 16 % 16), hexDigitUpper (b % 16)]

/-- UTF-8 encoding of one character, as `str::bytes` iterates it in Rust. -/
def charUtf8Bytes (c : Char) : List Nat :=
  if c.toNat < 0x80 then [c.toNat]
  else if c.toNat < 0x800 then [0xC0 + c.toNat / 64, 0x80 + c.toNat % 64]
  else if c.toNat < 0x10000 then
    [0xE0 + c.toNat / 4096, 0x80 + c.toNat / 64 % 64, 0x80 + c.toNat % 64]
  else
    [0xF0 + c.toNat / 262144, 0x80 + c.toNat / 4096 % 64, 0x80 + c.toNat / 64 % 64,
     0x80 + c.toNat % 64]

/-- Concatenation of a byte-valued function over a list. -/
def flatMapL {α β : Type} (f : α → List β) : List α → List β
  | [] => []
  | a :: as => f a ++ flatMapL f as

/-- The UTF-8 byte sequence of a string (`s.bytes()` in Rust). -/
def utf8Bytes (s : String) : List Nat :=
  flatMapL charUtf8Bytes s.data

/-- The `for b in s.bytes()` loop body of `url_encode` (both copies, in
`awssts/src/aliyun.rs` and `awssts/src/tencent.rs`): unreserved bytes are
pushed as characters, every other byte is pushed as percent plus two uppercase
hex digits, onto the accumulated `result`. -/
def urlEncodeLoop (acc : List Char) : List Nat → List Char
  | [] => acc
  | b :: bs =>
      if isUnreservedByte b then urlEncodeLoop (acc ++ [Char.ofNat b]) bs
      else urlEncodeLoop (acc ++ percentHexByte b) bs

/-- Byte-wise lexicographic comparison, the order `Ord` gives Rust byte slices
and therefore `str` and `String` (UTF-8 bytes compared bytewise). -/
def bytesLe : List Nat → List Nat → Bool
  | [], _ => true
  | _ :: _, [] => false
  | a :: as, b :: bs => if a < b then true else if b < a then false else bytesLe as bs

/-- Rust string comparison `a.cmp(b)` rendered as `a ≤ b`: lexicographic on
UTF-8 bytes. -/
def strLe (a b : String) : Bool := bytesLe (utf8Bytes a) (utf8Bytes b)

/-- Insertion into a sorted list, auxiliary to `sortLe`. -/
def insertLe {α : Type} (le : α → α → Bool) (x : α) : List α → List α
  | [] => [x]
  | y :: ys => if le x y then x :: y :: ys else y :: insertLe le x ys

/-- Model of the Rust stable sorts `Vec::sort` and `Vec::sort_by` with a total
comparator: insertion sort with respect to `le`.  The parameter lists sorted in
this development carry pairwise distinct sort keys, for which every correct
sort produces the same output. -/
def sortLe {α : Type} (le : α → α → Bool) : List α → List α
  | [] => []
  | x :: xs => insertLe le x (sortLe le xs)

/-- Separator join, the Rust `Vec::join` on strings. -/
def joinSep (sep : String) : List String → String
  | [] => ""
  | [s] => s
  | s :: rest => s ++ sep ++ joinSep sep rest

end Neocrates

namespace Neocrates.AwsStsAliyun

/-! ## `awssts/src/aliyun.rs` — Variant A query signing (STS AssumeRole) -/

def STS_SIGN_VERSION : String := "1.0"
def STS_API_VERSION : String := "2015-04-01"
def RESP_BODY_FORMAT : String := "JSON"
def PERCENT_ENCODE : String := "%2F"
def HTTP_GET : String := "GET"

/-- Function `url_encode` from `awssts/src/aliyun.rs`, acting on UTF-8 bytes of the
input string with an accumulator loop. -/
def url_encode (s : String) : String :=
  ⟨Neocrates.urlEncodeLoop [] (Neocrates.utf8Bytes s)⟩

/-- The `query_params` vector of `StsClient::generate_signed_url`, in push
order.  The timestamp (clock), nonce (UUID) and duration string are produced
by effects outside the function and enter as parameters. -/
def query_params (timestamp role_arn session_name access_key_id nonce
    expired_time_str : String) : List (String × String) :=
  [("SignatureVersion", STS_SIGN_VERSION),
   ("Format", RESP_BODY_FORMAT),
   ("Timestamp", timestamp),
   ("RoleArn", role_arn),
   ("RoleSessionName", session_name),
   ("AccessKeyId", access_key_id),
   ("SignatureMethod", "HMAC-SHA1"),
   ("Version", STS_API_VERSION),
   ("Action", "AssumeRole"),
   ("SignatureNonce", nonce),
   ("DurationSeconds", expired_time_str)]

/-- From `generate_signed_url`, the canonical query string: sort the parameter pairs by
name (`sort_by` on the first component), render each pair as
`url_encode(k)=url_encode(v)` and join with ampersands. -/
def canonical_query_string (timestamp role_arn session_name access_key_id nonce
    expired_time_str : String) : String :=
  Neocrates.joinSep "&"
    ((Neocrates.sortLe (fun a b => Neocrates.strLe a.1 b.1)
        (query_params timestamp role_arn session_name access_key_id nonce
          expired_time_str)).map
      (fun kv => url_encode kv.1 ++ "=" ++ url_encode kv.2))

/-- From `generate_signed_url`, the string to sign: method, the constant `PERCENT_ENCODE`
and the encoded canonical query string joined by ampersands. -/
def string_to_sign (timestamp role_arn session_name access_key_id nonce
    expired_time_str : String) : String :=
  HTTP_GET ++ "&" ++ PERCENT_ENCODE ++ "&" ++
    url_encode (canonical_query_string timestamp role_arn session_name
      access_key_id nonce expired_time_str)

end Neocrates.AwsStsAliyun

namespace Neocrates.SmsAliyun

/-! ## `sms/src/aliyun.rs` — Variant A query signing (SMS SendSms) -/

def SMS_VERSION : String := "2017-05-25"
def SIGNATURE_VERSION : String := "1.0"
def SIGNATURE_METHOD : String := "HMAC-SHA1"
def FORMAT : String := "json"

/-- Model of the external crate function `urlencoding::encode` used by
`sms/src/aliyun.rs`: RFC 3986 percent-encoding that passes
`A-Z a-z 0-9 - _ . ~` through and renders every other byte as a percent sign
plus two uppercase hex digits — byte for byte the same map as `url_encode` in
`awssts/src/aliyun.rs`. -/
def urlencoding_encode (s : String) : String :=
  ⟨Neocrates.urlEncodeLoop [] (Neocrates.utf8Bytes s)⟩

/-- The merged parameter map of `Aliyun::canonicalize_query_string`: the six
fixed metadata entries inserted there plus the seven request parameters
inserted by `send_sms`.  The source holds them in a `HashMap` with pairwise
distinct keys and sorts the rendered pair strings afterwards with a total
order, so the unspecified map iteration order does not affect the result; the
list below fixes insertion order. -/
def all_params (access_key_id signature_nonce timestamp phone_numbers sign_name
    template_code template_param : String) : List (String × String) :=
  [("AccessKeyId", access_key_id),
   ("Format", FORMAT),
   ("SignatureMethod", SIGNATURE_METHOD),
   ("SignatureNonce", signature_nonce),
   ("SignatureVersion", SIGNATURE_VERSION),
   ("Timestamp", timestamp),
   ("PhoneNumbers", phone_numbers),
   ("SignName", sign_name),
   ("TemplateCode", template_code),
   ("RegionId", "cn-hangzhou"),
   ("TemplateParam", template_param),
   ("Action", "SendSms"),
   ("Version", SMS_VERSION)]

/-- Method `Aliyun::canonicalize_query_string`: render every pair as
`k=urlencoding::encode(v)` (the key is not passed through the encoder), sort
the rendered strings, join with ampersands. -/
def canonicalize_query_string (access_key_id signature_nonce timestamp
    phone_numbers sign_name template_code template_param : String) : String :=
  Neocrates.joinSep "&"
    (Neocrates.sortLe Neocrates.strLe
      ((all_params access_key_id signature_nonce timestamp phone_numbers
          sign_name template_code template_param).map
        (fun kv => kv.1 ++ "=" ++ urlencoding_encode kv.2)))

/-- The string handed to `Aliyun::signature` by `send_sms`:
`format!("GET&%2F&...", urlencoding::encode(canonicalize_query_string))`. -/
def string_to_sign (access_key_id signature_nonce timestamp phone_numbers
    sign_name template_code template_param : String) : String :=
  "GET&%2F&" ++
    urlencoding_encode (canonicalize_query_string access_key_id signature_nonce
      timestamp phone_numbers sign_name template_code template_param)

end Neocrates.SmsAliyun

namespace Neocrates

/-! ## Variant A canonicalization as the specification words it -/

/-- The Variant A canonical query string as the specification defines it:
percent-encode every key and every value, sort the encoded pairs
lexicographically ascending by the encoded key, join with `&` between pairs
and `=` between key and value. -/
def specVariantACanonical (pairs : List (String × String)) : String :=
  joinSep "&"
    ((sortLe (fun a b => strLe a.1 b.1)
        (pairs.map (fun kv =>
          (AwsStsAliyun.url_encode kv.1, AwsStsAliyun.url_encode kv.2)))).map
      (fun kv => kv.1 ++ "=" ++ kv.2))

end Neocrates

namespace Neocrates.AwsStsTencent

/-- Function `url_encode` from `awssts/src/tencent.rs`, textually the same function as
the copy in `awssts/src/aliyun.rs`: the accumulator loop over the UTF-8 bytes
of the input. -/
def url_encode (s : String) : String :=
  ⟨Neocrates.urlEncodeLoop [] (Neocrates.utf8Bytes s)⟩

end Neocrates.AwsStsTencent

namespace Neocrates

/-! ## The per-byte encoding map of claim C3, and supporting lemmas -/

/-- The unreserved characters as the specification lists them:
`A-Z`, `a-z`, `0-9`, dash, underscore, dot, tilde. -/
def specUnreservedChars : List Char :=
  "ABCDEFGHIJKLMNOPQRSTUVWXYZabcdefghijklmnopqrstuvwxyz0123456789-_.~".data

/-- Per-byte encoding exactly as claim C3 words it: a byte whose character is
in the unreserved set maps to itself, every other byte maps to a percent sign
followed by two uppercase hexadecimal digits. -/
def specByteEncode (b : Nat) : List Char :=
  if Char.ofNat b ∈ specUnreservedChars then [Char.ofNat b]
  else ['%', hexDigitUpper (b / 16 % 16), hexDigitUpper (b % 16)]

/-- The branch taken by the `url_encode` loop for a single byte. -/
def codeByteEncode (b : Nat) : List Char :=
  if isUnreservedByte b then [Char.ofNat b] else percentHexByte b

/-- Claim-side line decomposition: split a character list at every occurrence
of `c`.  Used to state the line shape of Variant B canonical requests. -/
def splitOnChar (c : Char) : List Char → List (List Char)
  | [] => [[]]
  | a :: rest =>
    match splitOnChar c rest with
    | [] => [[]]
    | r :: rs => if a == c then [] :: r :: rs else (a :: r) :: rs

/-- The lines of a string: the segments between newline characters. -/
def lineList (s : String) : List String :=
  (splitOnChar '\x0a' s.data).map fun l => ⟨l⟩

/-- Model of Rust `str::to_lowercase` restricted to its behaviour on ASCII
input (the only inputs it receives here, such as the action name `SendSms`):
letters `A-Z` shift down by 32, every other character passes through. -/
def to_lowercase (s : String) : String :=
  ⟨s.data.map fun ch =>
    if 0x41 ≤ ch.toNat && ch.toNat ≤ 0x5A then Char.ofNat (ch.toNat + 32) else ch⟩

end Neocrates

namespace Neocrates.AwsStsTencent

/-! ## `awssts/src/tencent.rs` — Variant B header signing (STS client)

The SHA-256 digests (`hash_sha256`) and the canonical query string feed the
format strings below; they enter as parameters (`canonical_params`,
`canonical_request_hash`).  `self.service` is the string `sts` fixed by
`StsClient::new`, kept as a parameter named `service` where the source reads
the field. -/

/-- From `send_request`: the `canonical_request` format string
`"METHOD\nURI\nPARAMS\nhost=HOST\ncontent-type=application/json\n\nhost;content-type\n"`
with `http_request_method = POST` and `canonical_uri = /`. -/
def canonical_request (canonical_params host : String) : String :=
  "POST" ++ "\n" ++ "/" ++ "\n" ++ canonical_params ++ "\nhost=" ++ host ++
    "\ncontent-type=application/json\n\nhost;content-type\n"

/-- From `send_request`: the `string_to_sign` format string
`"TC3-HMAC-SHA256\nTIMESTAMP\nDATE\nHASH"`. -/
def string_to_sign (timestamp date canonical_request_hash : String) : String :=
  "TC3-HMAC-SHA256\n" ++ timestamp ++ "\n" ++ date ++ "\n" ++
    canonical_request_hash

/-- From `send_request`: the `authorization` header value format string. -/
def authorization (secret_id date service signature : String) : String :=
  "TC3-HMAC-SHA256 Credential=" ++ secret_id ++ "/" ++ date ++ "/" ++ service ++
    ", SignedHeaders=content-type;host, Signature=" ++ signature

end Neocrates.AwsStsTencent

namespace Neocrates.SmsTencent

/-! ## `src/sms/tencent.rs` — Variant B header signing (SMS client)

The request body JSON rendering and its SHA-256 digest are external
(`serde_json`, `sha2`); the digest enters as the `hashed_request_payload`
parameter, already rendered as lowercase hex by `format!("...x", ...)`. -/

def HOST : String := "sms.tencentcloudapi.com"
def VERSION : String := "2021-01-11"
def SERVICE : String := "sms"
def CONTENT_TYPE : String := "content-type:application/json; charset=utf-8"

/-- From `send_sms`, step 1: the canonical request string `sign`, built by
`format!` from the method, a fixed `/` uri, an empty query string, the
`CONTENT_TYPE`, host and lowercased action header lines, the signed header
name list `content-type;host;x-tc-action`, and the payload hash. -/
def canonical_request (action hashed_request_payload : String) : String :=
  "POST" ++ "\n/\n\n" ++ CONTENT_TYPE ++ "\nhost:" ++ HOST ++ "\nx-tc-action:" ++
    Neocrates.to_lowercase action ++ "\n\ncontent-type;host;x-tc-action\n" ++
    hashed_request_payload

/-- From `send_sms`, step 2: the `string_to_sign` format string
`"TC3-HMAC-SHA256\nTIMESTAMP\nDATE/sms/tc3_request\nHASH"`. -/
def string_to_sign (timestamp time_date hashed_canonical_request : String) :
    String :=
  "TC3-HMAC-SHA256\n" ++ timestamp ++ "\n" ++ time_date ++ "/" ++ SERVICE ++
    "/tc3_request\n" ++ hashed_canonical_request

/-- From `builder_headers`: the `authorization` header value. -/
def authorization (secret_id time_date signature_str : String) : String :=
  "TC3-HMAC-SHA256 Credential=" ++ secret_id ++ "/" ++ time_date ++ "/" ++
    SERVICE ++ "/tc3_request, SignedHeaders=content-type;host;x-tc-action, Signature=" ++
    signature_str

end Neocrates.SmsTencent

namespace Neocrates.StsService

/-! ## `src/aws/sts_service.rs` — the credential cache, and the aliyun client
response handling it relies on (`StsClient::handle_response` from
`awssts/src/aliyun.rs`). -/

/-- Structure `Credentials` from `awssts/src/aliyun.rs`. -/
structure Credentials where
  access_key_id : String
  access_key_secret : String
  security_token : String
  expiration : String
deriving DecidableEq

/-- Structure `AssumedRoleUser` from `awssts/src/aliyun.rs`. -/
structure AssumedRoleUser where
  arn : String
  assumed_role_id : String
deriving DecidableEq

/-- Structure `Response` from `awssts/src/aliyun.rs`. -/
structure Response where
  credentials : Credentials
  assumed_role_user : AssumedRoleUser
  request_id : String
deriving DecidableEq

/-- Structure `ErrorResponse` from `awssts/src/aliyun.rs`. -/
structure ErrorResponse where
  code : String
  message : String
  request_id : String
  host_id : Option String
deriving DecidableEq

/-- Enum `StsError` from `awssts/src/aliyun.rs`.  The variants wrapping foreign
library errors (`reqwest`, `serde_json`, `url`) carry the display string of
the wrapped error. -/
inductive StsError where
  | RequestError (msg : String)
  | SerdeError (msg : String)
  | UrlError (msg : String)
  | ServiceError (status_code : Nat) (code message request_id : String)
      (host_id : Option String) (raw_message : String)
  | SignatureError (msg : String)
deriving DecidableEq

/-- The `Display` rendering of `StsError` generated by the `thiserror`
attributes in `awssts/src/aliyun.rs` (`err.to_string()`). -/
def StsError.display : StsError → String
  | .RequestError m => "HTTP request error: " ++ m
  | .SerdeError m => "JSON serialization error: " ++ m
  | .UrlError m => "URL parsing error: " ++ m
  | .ServiceError sc c m rid _ _ =>
      "STS API error: StatusCode=" ++ toString sc ++ ", ErrorCode=" ++ c ++
        ", ErrorMessage=" ++ m ++ ", RequestId=" ++ rid
  | .SignatureError m => "Signature error: " ++ m

/-- Predicate `reqwest::StatusCode::is_success`: the status class 200-299. -/
def status_is_success (status_code : Nat) : Bool :=
  200 ≤ status_code && status_code ≤ 299

/-- Method `StsClient::handle_response` from `awssts/src/aliyun.rs`.  The two
`serde_json::from_slice` calls are external library calls whose outcomes enter
as the parse oracles `parse_error_response` and `parse_response` (the error
side carries the serde display message).  The body is taken as a `String`:
on valid UTF-8, `String::from_utf8_lossy` is the identity. -/
def handle_response
    (parse_error_response : String → Except String ErrorResponse)
    (parse_response : String → Except String Response)
    (response_body : String) (status_code : Nat) : Except StsError Response :=
  if !status_is_success status_code then
    match parse_error_response response_body with
    | .error _ =>
        .error (.ServiceError status_code "UnknownError"
          "Failed to parse error response" "" none response_body)
    | .ok er =>
        .error (.ServiceError status_code er.code er.message er.request_id
          er.host_id response_body)
  else
    match parse_response response_body with
    | .error e => .error (.SerdeError e)
    | .ok response => .ok response

/-- Substring occurrence test on character lists (leading-match helper). -/
def leadMatch : List Char → List Char → Bool
  | [], _ => true
  | _ :: _, [] => false
  | a :: as, b :: bs => a == b && leadMatch as bs

/-- Substring occurrence test: does `needle` occur inside `hay`. -/
def subOccurs (needle : List Char) : List Char → Bool
  | [] => needle.isEmpty
  | b :: bs => leadMatch needle (b :: bs) || subOccurs needle bs

/-- Whether an `StsError` carries the string `body` anywhere in its fields:
the check behind the phrase "the error contains the complete raw response
body" of claim C8. -/
def StsError.carriesRaw (e : StsError) (body : String) : Bool :=
  match e with
  | .RequestError m => subOccurs body.data m.data
  | .SerdeError m => subOccurs body.data m.data
  | .UrlError m => subOccurs body.data m.data
  | .ServiceError _ c m rid hid raw =>
      subOccurs body.data c.data || subOccurs body.data m.data ||
      subOccurs body.data rid.data ||
      (match hid with | some h => subOccurs body.data h.data | none => false) ||
      subOccurs body.data raw.data
  | .SignatureError m => subOccurs body.data m.data

/-- Structure `AwsStsVo` from `src/aws/sts_service.rs`. -/
structure AwsStsVo where
  access_key_id : String
  access_key_secret : String
  security_token : String
  expiration : String
  endpoint : String
  region : String
  bucket : String
deriving DecidableEq

/-- Structure `AwsConfig` from `src/aws/sts_service.rs` (numeric lifetimes are `u32`
in the source; they are carried as `Nat` values below `2^32`). -/
structure AwsConfig where
  cos_type : String
  aliyun_accesskey_id : String
  aliyun_accesskey_secret : String
  aliyun_role_arn : String
  aliyun_expiration : Nat
  aliyun_role_session_name : String
  aliyun_endpoint : String
  aliyun_region_id : String
  aliyun_bucket : String
  rustfs_accesskey_id : String
  rustfs_accesskey_secret : String
  rustfs_endpoint : String
  rustfs_region_id : String
  rustfs_bucket : String
  rustfs_expiration : Nat
  minio_accesskey_id : String
  minio_accesskey_secret : String
  minio_endpoint : String
  minio_region_id : String
  minio_bucket : String
  minio_expiration : Nat
deriving DecidableEq

/-- The subset of `AppError` variants reachable from `get_aliyun_sts`
(`src/response/error.rs`): a general client error and a Redis error, each
carrying the display string of the wrapped error. -/
inductive AppError where
  | ClientError (msg : String)
  | RedisError (msg : String)
deriving DecidableEq

def CACHE_ALIYUN_STS : String := ":aliyun_sts:"

/-- Rendering of the Redis key: the cache namespace followed by the uid. -/
def redis_key (uid : Int) : String := CACHE_ALIYUN_STS ++ toString uid

/-- Model of the external Redis string store: an association list from key to
stored credential value and absolute expiry instant (seconds).  The stored
value is the credential object itself: the `serde_json::to_string` write and
the matching `serde_json::from_str` read of `get_aliyun_sts` are a round trip
and are modelled as the identity. -/
abbrev Store : Type := List (String × AwsStsVo × Nat)

/-- Redis `GET` at wall-clock second `now`: the entry is visible while `now`
is strictly before its expiry instant. -/
def storeGet (st : Store) (now : Nat) (key : String) : Option AwsStsVo :=
  match st.find? (fun e => e.1 == key) with
  | some (_, vo, expiry) => if now < expiry then some vo else none
  | none => none

/-- Redis `SETEX key value ttl` at wall-clock second `now`: the new entry
shadows any previous entry for the key and expires at `now + ttl`. -/
def storeSetex (st : Store) (now : Nat) (key : String) (vo : AwsStsVo)
    (ttl : Nat) : Store :=
  (key, vo, now + ttl) :: st

/-- The Rust expression `a as u64 - b` under the release-profile wrapping
semantics of unsigned subtraction: computed modulo `2^64`.  (Under the debug
profile the same underflow panics instead.) -/
def u64_sub (a b : Nat) : Nat := (a + 2 ^ 64 - b % 2 ^ 64) % 2 ^ 64

/-- The `AwsStsVo` built from a successful `assume_role` response inside
`get_aliyun_sts`: credentials copied from the response, endpoint, region and
bucket copied from the configuration. -/
def assumed_vo (config : AwsConfig) (response : Response) : AwsStsVo :=
  { access_key_id := response.credentials.access_key_id
    access_key_secret := response.credentials.access_key_secret
    security_token := response.credentials.security_token
    expiration := response.credentials.expiration
    endpoint := config.aliyun_endpoint
    region := config.aliyun_region_id
    bucket := config.aliyun_bucket }

instance {ε α : Type} [DecidableEq ε] [DecidableEq α] : DecidableEq (Except ε α) :=
  fun x y =>
    match x, y with
    | .ok a, .ok b =>
        if h : a = b then .isTrue (by rw [h])
        else .isFalse (fun he => by cases he; exact h rfl)
    | .error a, .error b =>
        if h : a = b then .isTrue (by rw [h])
        else .isFalse (fun he => by cases he; exact h rfl)
    | .ok _, .error _ => .isFalse (fun he => by cases he)
    | .error _, .ok _ => .isFalse (fun he => by cases he)

/-- The observable outcome of one `get_aliyun_sts` call: the returned result,
the store it leaves behind, and how many times the provider (the network call
`StsClient::assume_role`) was invoked. -/
structure FetchOutcome where
  result : Except AppError AwsStsVo
  store : Store
  provider_calls : Nat
deriving DecidableEq

/-- Method `CosService::get_aliyun_sts` from `src/aws/sts_service.rs`.  External
effects enter as parameters: `now` is the wall clock, `redis_get_fail` is
`some msg` when the Redis `get` itself fails at the transport (the `Err` arm),
`assume_role_result` is the outcome of the provider call if one is made, and
`setex_fail` is `some msg` when the Redis `SETEX` fails at the transport (in
which case the entry is not written). -/
def get_aliyun_sts (config : AwsConfig) (st : Store) (now : Nat)
    (redis_get_fail : Option String)
    (assume_role_result : Except StsError Response)
    (setex_fail : Option String) (uid : Int) : FetchOutcome :=
  match redis_get_fail with
  | some err => ⟨.error (.RedisError err), st, 0⟩
  | none =>
    match storeGet st now (redis_key uid) with
    | some vo => ⟨.ok vo, st, 0⟩
    | none =>
      match assume_role_result with
      | .error err => ⟨.error (.ClientError err.display), st, 1⟩
      | .ok response =>
          let sts := assumed_vo config response
          match setex_fail with
          | some e => ⟨.error (.RedisError e), st, 1⟩
          | none =>
              ⟨.ok sts,
               storeSetex st now (redis_key uid) sts
                 (u64_sub config.aliyun_expiration 60), 1⟩

/-! ### Concurrency model for claim C9

Each concurrent caller of `get_aliyun_sts` (cold path) passes three
suspension points in order: the Redis read, the provider call, the Redis
write.  A caller is a little state machine over those points, and a schedule
interleaves the atomic steps of `n` callers over the shared store.  The code
acquires no lock between the read and the fetch. -/

/-- The local progress of one caller through `get_aliyun_sts`. -/
inductive Phase where
  | start
  | missed
  | fetched (response : Response)
  | fin (result : Except AppError AwsStsVo)
deriving DecidableEq

/-- The shared state: the Redis store, each caller phase, and a count of
provider invocations made so far. -/
structure World where
  store : Store
  callers : List Phase
  provider_calls : Nat
deriving DecidableEq

/-- One atomic step of caller `i`: a `start` caller performs the Redis read
(hit completes it, miss advances it), a `missed` caller performs the provider
call, a `fetched` caller performs the `SETEX` write and completes.  The
provider outcome `response` and wall clock `now` are fixed across callers. -/
def stepCaller (config : AwsConfig) (response : Response) (now : Nat)
    (uid : Int) (w : World) (i : Nat) : World :=
  match w.callers.get? i with
  | none => w
  | some ph =>
    match ph with
    | .start =>
        match storeGet w.store now (redis_key uid) with
        | some vo => { w with callers := w.callers.set i (.fin (.ok vo)) }
        | none => { w with callers := w.callers.set i .missed }
    | .missed =>
        { w with callers := w.callers.set i (.fetched response),
                 provider_calls := w.provider_calls + 1 }
    | .fetched resp =>
        { w with
          callers := w.callers.set i (.fin (.ok (assumed_vo config resp))),
          store := storeSetex w.store now (redis_key uid) (assumed_vo config resp)
            (u64_sub config.aliyun_expiration 60) }
    | .fin _ => w

/-- Run a schedule: a list of caller indices, each performing its next atomic
step in turn. -/
def runSched (config : AwsConfig) (response : Response) (now : Nat) (uid : Int)
    (w : World) : List Nat → World
  | [] => w
  | i :: rest =>
      runSched config response now uid (stepCaller config response now uid w i)
        rest

/-- A world of `n` callers about to start against an empty (cold) store. -/
def coldWorld (n : Nat) : World :=
  ⟨[], List.replicate n .start, 0⟩

/-- The stampede interleaving: every caller performs its Redis read before any
caller has written, then every caller fetches, then every caller writes. -/
def stampedeSched (n : Nat) : List Nat :=
  List.range n ++ List.range n ++ List.range n

/-! ### Concrete instances used by witnesses and counterexamples -/

/-- A concrete configuration with the customary 3600 second lifetime. -/
def demoConfig : AwsConfig :=
  { cos_type := "aliyun"
    aliyun_accesskey_id := "LTAI5tDemoKey"
    aliyun_accesskey_secret := "demoSecret"
    aliyun_role_arn := "acs:ram::1405:role/demo"
    aliyun_expiration := 3600
    aliyun_role_session_name := "demo-session"
    aliyun_endpoint := "oss-cn-hangzhou.aliyuncs.com"
    aliyun_region_id := "cn-hangzhou"
    aliyun_bucket := "demo-bucket"
    rustfs_accesskey_id := ""
    rustfs_accesskey_secret := ""
    rustfs_endpoint := ""
    rustfs_region_id := ""
    rustfs_bucket := ""
    rustfs_expiration := 3600
    minio_accesskey_id := ""
    minio_accesskey_secret := ""
    minio_endpoint := ""
    minio_region_id := ""
    minio_bucket := ""
    minio_expiration := 3600 }

/-- Variant of `demoConfig` with a credential lifetime below the 60 second margin. -/
def demoShortConfig : AwsConfig := { demoConfig with aliyun_expiration := 30 }

/-- A concrete successful provider response. -/
def demoResponse : Response :=
  { credentials :=
      { access_key_id := "AK1"
        access_key_secret := "SK1"
        security_token := "TK1"
        expiration := "2026-10-12T13:00:00Z" }
    assumed_role_user :=
      { arn := "acs:ram::1405:role/demo/demo-session"
        assumed_role_id := "34458:demo-session" }
    request_id := "req-1" }

/-- Model of `serde_json::from_slice::<ErrorResponse>` evaluated on the body
`not json`: serde fails, and its display message reports the position of the
failure, not the body text. -/
def serdeErrOracleNotJson : String → Except String ErrorResponse :=
  fun _ => .error "expected value at line 1 column 1"

/-- Model of `serde_json::from_slice::<Response>` evaluated on the body
`not json`: serde fails with the position message. -/
def serdeRespOracleNotJson : String → Except String Response :=
  fun _ => .error "expected value at line 1 column 1"

/-- Model of `serde_json::from_slice::<ErrorResponse>` on the scenario 2 error
envelope of the specification: the typed error parses. -/
def serdeErrOracle403 : String → Except String ErrorResponse :=
  fun _ =>
    .ok { code := "InvalidAccessKeyId.NotFound"
          message := "Specified access key is not found."
          request_id := "abc"
          host_id := none }

end Neocrates.StsService

namespace Neocrates

theorem urlEncodeLoop_eq (bs : List Nat) :
    ∀ acc, urlEncodeLoop acc bs = acc ++ flatMapL codeByteEncode bs := by
  induction bs with
  | nil => intro acc; simp [urlEncodeLoop, flatMapL]
  | cons b bs ih =>
      intro acc
      by_cases h : isUnreservedByte b <;>
        simp [urlEncodeLoop, flatMapL, codeByteEncode, h, ih, List.append_assoc]

theorem mem_flatMapL {α β : Type} (f : α → List β) (l : List α) (x : β) :
    x ∈ flatMapL f l ↔ ∃ a ∈ l, x ∈ f a := by
  induction l with
  | nil => simp [flatMapL]
  | cons a l ih => simp [flatMapL, ih]

theorem flatMapL_congr {α β : Type} {f g : α → List β} {l : List α}
    (h : ∀ a ∈ l, f a = g a) : flatMapL f l = flatMapL g l := by
  induction l with
  | nil => rfl
  | cons a l ih =>
      simp only [flatMapL, h a (List.mem_cons_self a l)]
      exact congrArg _ (ih fun a ha => h a (List.mem_cons_of_mem _ ha))

theorem charUtf8Bytes_lt (c : Char) : ∀ b ∈ charUtf8Bytes c, b < 256 := by
  have hval : c.toNat < 1114112 := by
    have h := c.valid
    have hrfl : c.toNat = c.val.toNat := rfl
    rw [hrfl]
    rcases h with h | h <;> omega
  intro b hb
  unfold charUtf8Bytes at hb
  split at hb
  · simp at hb; omega
  · split at hb
    · simp at hb
      have h1 : c.toNat / 64 < 32 := by omega
      have h2 : c.toNat % 64 < 64 := Nat.mod_lt _ (by omega)
      rcases hb with hb | hb <;> omega
    · split at hb
      · simp at hb
        have h1 : c.toNat / 4096 < 16 := by omega
        have h2 : c.toNat / 64 % 64 < 64 := Nat.mod_lt _ (by omega)
        have h3 : c.toNat % 64 < 64 := Nat.mod_lt _ (by omega)
        rcases hb with hb | hb | hb <;> omega
      · simp at hb
        have h1 : c.toNat / 262144 < 5 := by omega
        have h2 : c.toNat / 4096 % 64 < 64 := Nat.mod_lt _ (by omega)
        have h3 : c.toNat / 64 % 64 < 64 := Nat.mod_lt _ (by omega)
        have h4 : c.toNat % 64 < 64 := Nat.mod_lt _ (by omega)
        rcases hb with hb | hb | hb | hb <;> omega

theorem utf8Bytes_lt (s : String) : ∀ b ∈ utf8Bytes s, b < 256 := by
  intro b hb
  rcases (mem_flatMapL charUtf8Bytes s.data b).mp hb with ⟨c, _, hc⟩
  exact charUtf8Bytes_lt c b hc

set_option maxRecDepth 4000 in
theorem codeByteEncode_eq_spec : ∀ b : Fin 256,
    codeByteEncode b.val = specByteEncode b.val := by decide

set_option maxRecDepth 4000 in
theorem plus_not_mem_codeByteEncode : ∀ b : Fin 256,
    '+' ∉ codeByteEncode b.val := by decide

end Neocrates

namespace Neocrates

/-! ## Claims C1, C2, C3 -/

/-- C1: for both Variant A implementations (the STS AssumeRole client in
`awssts/src/aliyun.rs` and the SMS SendSms client in `sms/src/aliyun.rs`),
the HMAC-signed string equals the HTTP method, then the literal constant
`%2F`, then the percent-encoding of the whole canonical query string, joined
by ampersands; the path slash appears as the fixed constant and the canonical
query string passes once through the general encoder. -/
theorem variantA_string_to_sign_shape
    (ts ra sn ak non dur ak2 non2 ts2 ph sg tc tp : String) :
    AwsStsAliyun.string_to_sign ts ra sn ak non dur =
      "GET" ++ "&" ++ "%2F" ++ "&" ++
        AwsStsAliyun.url_encode
          (AwsStsAliyun.canonical_query_string ts ra sn ak non dur) ∧
    SmsAliyun.string_to_sign ak2 non2 ts2 ph sg tc tp =
      "GET" ++ "&" ++ "%2F" ++ "&" ++
        SmsAliyun.urlencoding_encode
          (SmsAliyun.canonicalize_query_string ak2 non2 ts2 ph sg tc tp) :=
  ⟨rfl, rfl⟩

set_option maxRecDepth 10000 in
set_option maxHeartbeats 2000000 in
/-- C2: for every choice of parameter values, the canonical query string of
both Variant A implementations equals the specification form: the pairs
percent-encoded and then sorted lexicographically ascending by the encoded
key, joined with `&` between pairs and `=` between key and value.  (In the
SMS client the sort as written compares the joined `k=v` strings and leaves
keys unencoded; on its fixed, pairwise prefix-free, unreserved key set this
coincides with sorting the encoded pairs by encoded key.) -/
theorem variantA_canonical_sorted_by_encoded_key
    (ts ra sn ak non dur ak2 non2 ts2 ph sg tc tp : String) :
    AwsStsAliyun.canonical_query_string ts ra sn ak non dur =
      specVariantACanonical (AwsStsAliyun.query_params ts ra sn ak non dur) ∧
    SmsAliyun.canonicalize_query_string ak2 non2 ts2 ph sg tc tp =
      specVariantACanonical
        (SmsAliyun.all_params ak2 non2 ts2 ph sg tc tp) :=
  ⟨rfl, rfl⟩

/-- C3: for every input string, both copies of the signing percent-encoder
(`url_encode` in `awssts/src/aliyun.rs` and in `awssts/src/tencent.rs`) encode
byte by byte, mapping each UTF-8 byte in `A-Z a-z 0-9 - _ . ~` to itself and
every other byte to a percent sign followed by two uppercase hexadecimal
digits; in particular a space encodes to `%20`, and a plus sign never appears
in the output. -/
theorem url_encode_per_byte_spec (s : String) :
    (AwsStsAliyun.url_encode s).data = flatMapL specByteEncode (utf8Bytes s) ∧
    AwsStsTencent.url_encode s = AwsStsAliyun.url_encode s ∧
    AwsStsAliyun.url_encode " " = "%20" ∧
    AwsStsAliyun.url_encode "a b" = "a%20b" ∧
    '+' ∉ (AwsStsAliyun.url_encode s).data := by
  have hdata : (AwsStsAliyun.url_encode s).data = flatMapL codeByteEncode (utf8Bytes s) := by
    show (urlEncodeLoop [] (utf8Bytes s)) = _
    rw [urlEncodeLoop_eq]
    simp
  refine ⟨?_, rfl, by decide, by decide, ?_⟩
  · rw [hdata]
    exact flatMapL_congr fun b hb =>
      codeByteEncode_eq_spec ⟨b, utf8Bytes_lt s b hb⟩
  · rw [hdata]
    intro hmem
    rcases (mem_flatMapL codeByteEncode (utf8Bytes s) '+').mp hmem with ⟨b, hb, hplus⟩
    exact plus_not_mem_codeByteEncode ⟨b, utf8Bytes_lt s b hb⟩ hplus

set_option maxRecDepth 10000 in
/-- C4 (code bug in the Tencent STS client): evaluated at a concrete request,
the Tencent SMS client builds the string-to-sign with the credential-scope
third line `date/sms/tc3_request`, as the claim states, but the Tencent STS
client emits the bare date as its third line, omitting the
`/service/tc3_request` scope part. -/
theorem tencent_string_to_sign_scope_line :
    SmsTencent.string_to_sign "1700000000" "2023-11-14" "0f21" =
      "TC3-HMAC-SHA256\n1700000000\n2023-11-14/sms/tc3_request\n0f21" ∧
    AwsStsTencent.string_to_sign "1700000000" "2023-11-14" "0f21" =
      "TC3-HMAC-SHA256\n1700000000\n2023-11-14\n0f21" ∧
    AwsStsTencent.string_to_sign "1700000000" "2023-11-14" "0f21" ≠
      "TC3-HMAC-SHA256\n1700000000\n2023-11-14/sts/tc3_request\n0f21" :=
  ⟨rfl, rfl, by decide⟩

set_option maxRecDepth 10000 in
/-- C5 (code bug in the Tencent STS client): evaluated at a concrete request,
the Tencent SMS client canonical request has the claimed line shape — method,
uri, query string, one `name:value` line per signed header, a blank line, the
signed-header-name list, the body hash — and the embedded list equals the
`SignedHeaders` list of the Authorization header it sends; the Tencent STS
client instead writes `name=value` header lines, ends with an empty line in
place of the body hash, and embeds `host;content-type` while its Authorization
header sends `SignedHeaders=content-type;host`. -/
theorem tencent_canonical_request_shape :
    lineList (SmsTencent.canonical_request "SendSms" "0f21") =
      ["POST", "/", "", "content-type:application/json; charset=utf-8",
       "host:sms.tencentcloudapi.com", "x-tc-action:sendsms", "",
       "content-type;host;x-tc-action", "0f21"] ∧
    SmsTencent.authorization "AKID" "2023-11-14" "sig" =
      "TC3-HMAC-SHA256 Credential=AKID/2023-11-14/sms/tc3_request, SignedHeaders=content-type;host;x-tc-action, Signature=sig" ∧
    lineList (AwsStsTencent.canonical_request "Action=X" "sts.tencentcloudapi.com") =
      ["POST", "/", "Action=X", "host=sts.tencentcloudapi.com",
       "content-type=application/json", "", "host;content-type", ""] ∧
    AwsStsTencent.authorization "AKID" "2023-11-14" "sts" "sig" =
      "TC3-HMAC-SHA256 Credential=AKID/2023-11-14/sts, SignedHeaders=content-type;host, Signature=sig" ∧
    ("host;content-type" : String) ≠ "content-type;host" :=
  ⟨by decide, rfl, by decide, rfl, by decide⟩

end Neocrates

namespace Neocrates.StsService

theorem leadMatch_self (l : List Char) : leadMatch l l = true := by
  induction l with
  | nil => rfl
  | cons a as ih => simp [leadMatch, ih]

theorem subOccurs_self (l : List Char) : subOccurs l l = true := by
  cases l with
  | nil => rfl
  | cons a as => simp [subOccurs, leadMatch_self]

theorem carriesRaw_service (sc : Nat) (c m rid : String) (hid : Option String)
    (body : String) :
    (StsError.ServiceError sc c m rid hid body).carriesRaw body = true := by
  simp [StsError.carriesRaw, subOccurs_self]

/-- C6: the cache policy of `get_aliyun_sts`.  An unexpired cache entry for
the principal is returned as is, with no provider call and no write.  On a
cache miss with a successful provider fetch, the credential built from the
response is stored back with TTL `aliyun_expiration - 60` (a 3600 second
lifetime is cached for 3540 seconds) and returned; any second call strictly
before that TTL has elapsed returns the identical credential with zero
provider calls, whatever the provider would answer then. -/
theorem get_aliyun_sts_cache_policy (config : AwsConfig) (st : Store)
    (now now2 : Nat) (uid : Int) (response : Response) (vo : AwsStsVo)
    (later_provider : Except StsError Response) :
    (storeGet st now (redis_key uid) = some vo →
      get_aliyun_sts config st now none (.ok response) none uid =
        ⟨.ok vo, st, 0⟩) ∧
    (storeGet st now (redis_key uid) = none →
      get_aliyun_sts config st now none (.ok response) none uid =
        ⟨.ok (assumed_vo config response),
         storeSetex st now (redis_key uid) (assumed_vo config response)
           (u64_sub config.aliyun_expiration 60), 1⟩) ∧
    (60 ≤ config.aliyun_expiration → config.aliyun_expiration < 2 ^ 64 →
      u64_sub config.aliyun_expiration 60 = config.aliyun_expiration - 60) ∧
    (now2 < now + u64_sub config.aliyun_expiration 60 →
      get_aliyun_sts config
        (storeSetex st now (redis_key uid) (assumed_vo config response)
          (u64_sub config.aliyun_expiration 60))
        now2 none later_provider none uid =
        ⟨.ok (assumed_vo config response),
         storeSetex st now (redis_key uid) (assumed_vo config response)
           (u64_sub config.aliyun_expiration 60), 0⟩) := by
  refine ⟨?_, ?_, ?_, ?_⟩
  · intro h; simp [get_aliyun_sts, h]
  · intro h; simp [get_aliyun_sts, h]
  · intro h1 h2
    have h60 : (60 : Nat) % 2 ^ 64 = 60 := by norm_num
    have hpow : (2 : Nat) ^ 64 = 18446744073709551616 := by norm_num
    simp only [u64_sub, h60, hpow] at *
    omega
  · intro h
    have hget : storeGet
        (storeSetex st now (redis_key uid) (assumed_vo config response)
          (u64_sub config.aliyun_expiration 60)) now2 (redis_key uid) =
        some (assumed_vo config response) := by
      simp [storeGet, storeSetex, List.find?, h]
    simp [get_aliyun_sts, hget]

/-- Witness for C6 at the scenario of the specification: uid 7, empty cache,
3600 second lifetime.  The cold call stores the credential with TTL 3540 and
one provider call; a hit at second 10 returns the stored credential with zero
provider calls; a second call at second 3539 after a cold fetch at second 0
returns the identical credential with zero provider calls. -/
theorem get_aliyun_sts_cache_policy_witness :
    get_aliyun_sts demoConfig [] 0 none (.ok demoResponse) none 7 =
      ⟨.ok (assumed_vo demoConfig demoResponse),
       [(redis_key 7, assumed_vo demoConfig demoResponse, 3540)], 1⟩ ∧
    get_aliyun_sts demoConfig
        [(redis_key 7, assumed_vo demoConfig demoResponse, 3540)] 10 none
        (.ok demoResponse) none 7 =
      ⟨.ok (assumed_vo demoConfig demoResponse),
       [(redis_key 7, assumed_vo demoConfig demoResponse, 3540)], 0⟩ ∧
    u64_sub demoConfig.aliyun_expiration 60 = 3540 ∧
    get_aliyun_sts demoConfig
        [(redis_key 7, assumed_vo demoConfig demoResponse, 3540)] 3539 none
        (.error (.RequestError "connection refused")) none 7 =
      ⟨.ok (assumed_vo demoConfig demoResponse),
       [(redis_key 7, assumed_vo demoConfig demoResponse, 3540)], 0⟩ :=
  ⟨(get_aliyun_sts_cache_policy demoConfig [] 0 0 7 demoResponse
      (assumed_vo demoConfig demoResponse) (.ok demoResponse)).2.1 (by decide),
   (get_aliyun_sts_cache_policy demoConfig
      [(redis_key 7, assumed_vo demoConfig demoResponse, 3540)] 10 0 7
      demoResponse (assumed_vo demoConfig demoResponse) (.ok demoResponse)).1
     (by decide),
   (get_aliyun_sts_cache_policy demoConfig [] 0 0 7 demoResponse
      (assumed_vo demoConfig demoResponse) (.ok demoResponse)).2.2.1
     (by decide) (by decide),
   (get_aliyun_sts_cache_policy demoConfig [] 0 3539 7 demoResponse
      (assumed_vo demoConfig demoResponse)
      (.error (.RequestError "connection refused"))).2.2.2 (by decide)⟩

/-- C7: every error path of `get_aliyun_sts` returns the error to the caller
and leaves the store exactly as it was: a failed provider fetch surfaces as
`ClientError` around the display of the provider error, a failed Redis read
or write surfaces as `RedisError`, and in all three cases no entry is
written.  The display of a provider rejection carries the status code, the
provider error code and the request id. -/
theorem get_aliyun_sts_error_paths (config : AwsConfig) (st : Store)
    (now : Nat) (uid : Int) (err : StsError) (gmsg smsg : String)
    (response : Response) :
    (storeGet st now (redis_key uid) = none →
      get_aliyun_sts config st now none (.error err) none uid =
        ⟨.error (.ClientError err.display), st, 1⟩) ∧
    (get_aliyun_sts config st now (some gmsg) (.error err) none uid =
      ⟨.error (.RedisError gmsg), st, 0⟩) ∧
    (storeGet st now (redis_key uid) = none →
      get_aliyun_sts config st now none (.ok response) (some smsg) uid =
        ⟨.error (.RedisError smsg), st, 1⟩) ∧
    (∀ sc c m rid hid raw,
      (StsError.ServiceError sc c m rid hid raw).display =
        "STS API error: StatusCode=" ++ toString sc ++ ", ErrorCode=" ++ c ++
          ", ErrorMessage=" ++ m ++ ", RequestId=" ++ rid) := by
  refine ⟨?_, ?_, ?_, fun sc c m rid hid raw => rfl⟩
  · intro h; simp [get_aliyun_sts, h]
  · simp [get_aliyun_sts]
  · intro h; simp [get_aliyun_sts, h]

/-- Witness for C7, scenario 2 of the specification: the provider rejects
with HTTP 403 and the typed envelope `InvalidAccessKeyId.NotFound`/`abc`; the
caller receives a `ClientError` whose display carries the status code, the
error code and the request id, and the (empty) cache stays empty. -/
theorem get_aliyun_sts_error_paths_witness :
    get_aliyun_sts demoConfig [] 0 none
        (.error (.ServiceError 403 "InvalidAccessKeyId.NotFound"
          "Specified access key is not found." "abc" none
          "raw-envelope")) none 7 =
      ⟨.error (.ClientError
        "STS API error: StatusCode=403, ErrorCode=InvalidAccessKeyId.NotFound, ErrorMessage=Specified access key is not found., RequestId=abc"),
       [], 1⟩ :=
  (get_aliyun_sts_error_paths demoConfig [] 0 7
    (.ServiceError 403 "InvalidAccessKeyId.NotFound"
      "Specified access key is not found." "abc" none "raw-envelope")
    "g" "s" demoResponse).1 (by decide)

/-- C8 counterexample: a response whose body parses as neither envelope, with
a success status code.  `handle_response` returns the serde decode error,
whose display carries the parse position only: the raw response body string
`not json` appears nowhere in the returned error, refuting the claim for
success statuses. -/
theorem handle_response_success_status_drops_body :
    handle_response serdeErrOracleNotJson serdeRespOracleNotJson
        "not json" 200 =
      .error (.SerdeError "expected value at line 1 column 1") ∧
    (StsError.SerdeError "expected value at line 1 column 1").carriesRaw
        "not json" = false :=
  ⟨rfl, by decide⟩

/-- C8 amended: on every response with a non-success status, whether or not
the body parses as the typed error envelope, the returned `ServiceError`
carries the complete raw response body in its `raw_message` field; on a
success status whose body fails to parse as the success envelope, the
returned error is the JSON decode error, which does not retain the body. -/
theorem handle_response_raw_body (pe : String → Except String ErrorResponse)
    (pr : String → Except String Response) (body : String) (status : Nat)
    (emsg : String) :
    (status_is_success status = false →
      ∃ code message rid hid,
        handle_response pe pr body status =
          .error (.ServiceError status code message rid hid body) ∧
        (StsError.ServiceError status code message rid hid body).carriesRaw
          body = true) ∧
    (status_is_success status = true → pr body = .error emsg →
      handle_response pe pr body status = .error (.SerdeError emsg)) := by
  constructor
  · intro h
    cases hpe : pe body with
    | error m =>
        exact ⟨"UnknownError", "Failed to parse error response", "", none,
          by simp [handle_response, h, hpe], carriesRaw_service _ _ _ _ _ _⟩
    | ok er =>
        exact ⟨er.code, er.message, er.request_id, er.host_id,
          by simp [handle_response, h, hpe], carriesRaw_service _ _ _ _ _ _⟩
  · intro h hpr
    simp [handle_response, h, hpr]

/-- Witness for the amended C8, at the 403 envelope of scenario 2 with body
`raw-envelope`, and at a success status with an unparsable body. -/
theorem handle_response_raw_body_witness :
    (∃ code message rid hid,
      handle_response serdeErrOracle403 serdeRespOracleNotJson
          "raw-envelope" 403 =
        .error (.ServiceError 403 code message rid hid "raw-envelope") ∧
      (StsError.ServiceError 403 code message rid hid
        "raw-envelope").carriesRaw "raw-envelope" = true) ∧
    handle_response serdeErrOracle403 serdeRespOracleNotJson "ok-garbage" 200 =
      .error (.SerdeError "expected value at line 1 column 1") :=
  ⟨(handle_response_raw_body serdeErrOracle403 serdeRespOracleNotJson
      "raw-envelope" 403 "expected value at line 1 column 1").1 (by decide),
   (handle_response_raw_body serdeErrOracle403 serdeRespOracleNotJson
      "ok-garbage" 200 "expected value at line 1 column 1").2 (by decide)
     (by decide)⟩

/-- C10: the cache TTL of `get_aliyun_sts` is the wrapping u64 subtraction
`aliyun_expiration - 60`.  For lifetimes of at least 60 seconds it is the
plain difference; for every configured lifetime below 60 seconds the
subtraction underflows and wraps to at least `2^64 - 60` seconds, and the
fetched credential is stored with that enormous TTL (caching it essentially
forever) instead of the short lifetime being handled or rejected. -/
theorem aliyun_expiration_underflow (config : AwsConfig) (st : Store)
    (now : Nat) (uid : Int) (response : Response) :
    (60 ≤ config.aliyun_expiration → config.aliyun_expiration < 2 ^ 64 →
      u64_sub config.aliyun_expiration 60 = config.aliyun_expiration - 60) ∧
    (config.aliyun_expiration < 60 →
      u64_sub config.aliyun_expiration 60 =
        config.aliyun_expiration + (2 ^ 64 - 60) ∧
      2 ^ 64 - 60 ≤ u64_sub config.aliyun_expiration 60) ∧
    (config.aliyun_expiration < 60 →
      storeGet st now (redis_key uid) = none →
      get_aliyun_sts config st now none (.ok response) none uid =
        ⟨.ok (assumed_vo config response),
         (redis_key uid, assumed_vo config response,
           now + (config.aliyun_expiration + (2 ^ 64 - 60))) :: st, 1⟩) := by
  have hpow : (2 : Nat) ^ 64 = 18446744073709551616 := by norm_num
  have h60 : (60 : Nat) % 2 ^ 64 = 60 := by norm_num
  refine ⟨?_, ?_, ?_⟩
  · intro h1 h2; simp only [u64_sub, h60, hpow] at *; omega
  · intro h
    have : u64_sub config.aliyun_expiration 60 =
        config.aliyun_expiration + (2 ^ 64 - 60) := by
      simp only [u64_sub, h60, hpow] at *
      omega
    exact ⟨this, by simp only [this, hpow]; omega⟩
  · intro h hget
    have hwrap : u64_sub config.aliyun_expiration 60 =
        config.aliyun_expiration + (2 ^ 64 - 60) := by
      simp only [u64_sub, h60, hpow] at *
      omega
    simp [get_aliyun_sts, hget, storeSetex, hwrap]

/-- Witness for C10 at a 30 second configured lifetime: the TTL wraps to
`2^64 - 30` seconds and the credential is cached with that TTL; at the 3600
second lifetime the TTL is the plain 3540. -/
theorem aliyun_expiration_underflow_witness :
    u64_sub demoShortConfig.aliyun_expiration 60 = 18446744073709551586 ∧
    18446744073709551556 ≤ u64_sub demoShortConfig.aliyun_expiration 60 ∧
    get_aliyun_sts demoShortConfig [] 5 none (.ok demoResponse) none 7 =
      ⟨.ok (assumed_vo demoShortConfig demoResponse),
       [(redis_key 7, assumed_vo demoShortConfig demoResponse,
         5 + 18446744073709551586)], 1⟩ ∧
    u64_sub demoConfig.aliyun_expiration 60 = 3540 :=
  ⟨((aliyun_expiration_underflow demoShortConfig [] 5 7 demoResponse).2.1
      (by decide)).1,
   ((aliyun_expiration_underflow demoShortConfig [] 5 7 demoResponse).2.1
      (by decide)).2,
   (aliyun_expiration_underflow demoShortConfig [] 5 7 demoResponse).2.2
     (by decide) (by decide),
   (aliyun_expiration_underflow demoConfig [] 5 7 demoResponse).1
     (by decide) (by decide)⟩

theorem runSched_append (config : AwsConfig) (response : Response) (now : Nat)
    (uid : Int) (w : World) (l1 l2 : List Nat) :
    runSched config response now uid w (l1 ++ l2) =
      runSched config response now uid
        (runSched config response now uid w l1) l2 := by
  induction l1 generalizing w with
  | nil => rfl
  | cons i rest ih => simp [runSched, ih]

theorem get_replicate_append {α : Type} (x y : α) (a : Nat) (t : List α) :
    (List.replicate a x ++ y :: t).get? a = some y := by
  induction a with
  | zero => rfl
  | succ a ih => simpa [List.replicate_succ] using ih

theorem set_replicate_append {α : Type} (x y z : α) (a : Nat) (t : List α) :
    (List.replicate a x ++ y :: t).set a z = List.replicate a x ++ z :: t := by
  induction a with
  | zero => rfl
  | succ a ih => simp [List.replicate_succ, List.set, ih]

theorem replicate_append_cons {α : Type} (m : α) (a : Nat) (t : List α) :
    List.replicate a m ++ m :: t = m :: (List.replicate a m ++ t) := by
  induction a with
  | zero => rfl
  | succ a ih => simp [List.replicate_succ, ih]

theorem reads_phase (config : AwsConfig) (response : Response) (now : Nat)
    (uid : Int) :
    ∀ b a, runSched config response now uid
        ⟨[], List.replicate a Phase.missed ++ List.replicate b Phase.start, 0⟩
        (List.range' a b) =
      ⟨[], List.replicate (a + b) Phase.missed, 0⟩ := by
  intro b
  induction b with
  | zero => intro a; simp [List.range', runSched]
  | succ b ih =>
      intro a
      have hstep : stepCaller config response now uid
          ⟨[], List.replicate a Phase.missed ++
            List.replicate (b + 1) Phase.start, 0⟩ a =
          ⟨[], List.replicate (a + 1) Phase.missed ++
            List.replicate b Phase.start, 0⟩ := by
        simp only [stepCaller, List.replicate_succ, get_replicate_append]
        simp [storeGet, set_replicate_append, replicate_append_cons]
      have hrange : List.range' a (b + 1) = a :: List.range' (a + 1) b := rfl
      rw [hrange]
      show runSched config response now uid
          (stepCaller config response now uid _ a) (List.range' (a + 1) b) = _
      rw [hstep, ih (a + 1)]
      have : a + 1 + b = a + (b + 1) := by omega
      rw [this]

theorem fetch_phase (config : AwsConfig) (response : Response) (now : Nat)
    (uid : Int) (st : Store) :
    ∀ b a c, runSched config response now uid
        ⟨st, List.replicate a (Phase.fetched response) ++
          List.replicate b Phase.missed, c⟩
        (List.range' a b) =
      ⟨st, List.replicate (a + b) (Phase.fetched response), c + b⟩ := by
  intro b
  induction b with
  | zero => intro a c; simp [List.range', runSched]
  | succ b ih =>
      intro a c
      have hstep : stepCaller config response now uid
          ⟨st, List.replicate a (Phase.fetched response) ++
            List.replicate (b + 1) Phase.missed, c⟩ a =
          ⟨st, List.replicate (a + 1) (Phase.fetched response) ++
            List.replicate b Phase.missed, c + 1⟩ := by
        simp only [stepCaller, List.replicate_succ, get_replicate_append]
        simp [set_replicate_append, replicate_append_cons]
      have hrange : List.range' a (b + 1) = a :: List.range' (a + 1) b := rfl
      rw [hrange]
      show runSched config response now uid
          (stepCaller config response now uid _ a) (List.range' (a + 1) b) = _
      rw [hstep, ih (a + 1) (c + 1)]
      have h1 : a + 1 + b = a + (b + 1) := by omega
      have h2 : c + 1 + b = c + (b + 1) := by omega
      rw [h1, h2]

theorem write_phase (config : AwsConfig) (response : Response) (now : Nat)
    (uid : Int) :
    ∀ b a c (st : Store),
      (runSched config response now uid
        ⟨st, List.replicate a (Phase.fin (.ok (assumed_vo config response))) ++
          List.replicate b (Phase.fetched response), c⟩
        (List.range' a b)).provider_calls = c ∧
      (runSched config response now uid
        ⟨st, List.replicate a (Phase.fin (.ok (assumed_vo config response))) ++
          List.replicate b (Phase.fetched response), c⟩
        (List.range' a b)).callers =
        List.replicate (a + b) (Phase.fin (.ok (assumed_vo config response))) := by
  intro b
  induction b with
  | zero => intro a c st; simp [List.range', runSched]
  | succ b ih =>
      intro a c st
      have hstep : stepCaller config response now uid
          ⟨st, List.replicate a (Phase.fin (.ok (assumed_vo config response))) ++
            List.replicate (b + 1) (Phase.fetched response), c⟩ a =
          ⟨storeSetex st now (redis_key uid) (assumed_vo config response)
             (u64_sub config.aliyun_expiration 60),
           List.replicate (a + 1)
             (Phase.fin (.ok (assumed_vo config response))) ++
             List.replicate b (Phase.fetched response), c⟩ := by
        simp only [stepCaller, List.replicate_succ, get_replicate_append]
        simp [set_replicate_append, replicate_append_cons]
      have hrange : List.range' a (b + 1) = a :: List.range' (a + 1) b := rfl
      rw [hrange]
      constructor
      · show (runSched config response now uid
            (stepCaller config response now uid _ a)
            (List.range' (a + 1) b)).provider_calls = c
        rw [hstep]
        exact (ih (a + 1) c _).1
      · show (runSched config response now uid
            (stepCaller config response now uid _ a)
            (List.range' (a + 1) b)).callers = _
        rw [hstep]
        rw [(ih (a + 1) c _).2]
        have : a + 1 + b = a + (b + 1) := by omega
        rw [this]

/-- C9 counterexample: two callers racing on a cold cache, under the
interleaving in which both pass the Redis read before either has written
(legal, since `get_aliyun_sts` acquires no lock between the read and the
fetch), invoke the provider twice — more than the at most one invocation the
claim allows. -/
theorem stampede_two_callers_two_fetches :
    (runSched demoConfig demoResponse 0 7 (coldWorld 2)
      (stampedeSched 2)).provider_calls = 2 ∧
    ¬ ((runSched demoConfig demoResponse 0 7 (coldWorld 2)
      (stampedeSched 2)).provider_calls ≤ 1) := by
  constructor
  · decide
  · decide

/-- C9 amended: `get_aliyun_sts` performs no per-principal serialization of
cache misses.  For every `n`, under the interleaving in which all `n`
concurrent callers pass the Redis read before any caller has written, every
caller misses and invokes the provider: the run completes all `n` callers
with exactly `n` provider invocations, one per caller. -/
theorem stampede_every_caller_fetches (config : AwsConfig)
    (response : Response) (now : Nat) (uid : Int) (n : Nat) :
    (runSched config response now uid (coldWorld n)
      (stampedeSched n)).provider_calls = n ∧
    (runSched config response now uid (coldWorld n)
      (stampedeSched n)).callers =
      List.replicate n (Phase.fin (.ok (assumed_vo config response))) := by
  have hA : runSched config response now uid
      ⟨[], List.replicate n Phase.start, 0⟩ (List.range' 0 n) =
      ⟨[], List.replicate n Phase.missed, 0⟩ := by
    have h := reads_phase config response now uid n 0
    simpa using h
  have hB : runSched config response now uid
      ⟨[], List.replicate n Phase.missed, 0⟩ (List.range' 0 n) =
      ⟨[], List.replicate n (Phase.fetched response), n⟩ := by
    have h := fetch_phase config response now uid [] n 0 0
    simpa using h
  have hC := write_phase config response now uid n 0 n []
  have key : runSched config response now uid (coldWorld n)
      (stampedeSched n) =
      runSched config response now uid
        ⟨[], List.replicate n (Phase.fetched response), n⟩
        (List.range' 0 n) := by
    unfold stampedeSched coldWorld
    rw [List.range_eq_range', runSched_append, runSched_append, hA, hB]
  rw [key]
  refine ⟨?_, ?_⟩
  · have h := hC.1
    simpa using h
  · have h := hC.2
    simpa using h

end Neocrates.StsService
